import Mathlib

set_option maxRecDepth 16384

/-!
Verification of the aya-network-monitor packet pipeline.

The development shallowly embeds the three Rust source files:
 * `aya-network-monitor-ebpf/src/main.rs` — the XDP packet parser
   (`try_aya_network_monitor`), modelled over a byte buffer `List Nat`
   (each element an octet value `< 256`).  Machine pointers `data_ptr` /
   `data_end` become the offsets `0` / `buf.length`; every byte the Rust
   code dereferences is recorded in an access trace so that the
   out-of-bounds safety property can be stated.
 * `aya-network-monitor-common/src/lib.rs` — the `NetworkEvent` record.
 * `aya-network-monitor/src/main.rs` — `Filter::matches` and the
   renderer (`format_event`, hex dumps, HTTP/DNS dissection, JSON).

Multi-byte loads follow the little-endian host convention of the Rust
code: a packed `u16`/`u32` field read yields the little-endian value of
its bytes, and `u16::from_be` / `u32::from_be` byte-swap it.  Strings
are modelled as `List Char`.
-/

namespace AyaNM

/-- Little-endian load of a packed `u16` field whose bytes are `b0 b1`. -/
def le16 (b0 b1 : Nat) : Nat := b0 + 256 * b1

/-- Little-endian load of a packed `u32` field whose bytes are `b0 b1 b2 b3`. -/
def le32 (b0 b1 b2 b3 : Nat) : Nat :=
  b0 + 256 * b1 + 65536 * b2 + 16777216 * b3

/-- Rust `u16::from_be` on a little-endian host: swap the two bytes. -/
def from_be16 (x : Nat) : Nat := x % 256 * 256 + x / 256 % 256

/-- Rust `u32::from_be` on a little-endian host: reverse the four bytes. -/
def from_be32 (x : Nat) : Nat :=
  x % 256 * 16777216 + x / 256 % 256 * 65536 + x / 65536 % 256 * 256 +
    x / 16777216 % 256

/-- The `NetworkEvent` record of `aya-network-monitor-common/src/lib.rs`.
Field values are kept in wire (network) byte order exactly as the eBPF
program stores them; `payload` always has the fixed capacity 128
(`MAX_PAYLOAD_SIZE`), zero-filled past `payload_len`. -/
structure NetworkEvent where
  protocol : Nat
  src_ip : Nat
  dst_ip : Nat
  src_port : Nat
  dst_port : Nat
  packet_size : Nat
  tcp_flags : Nat
  payload_len : Nat
  payload : List Nat
deriving DecidableEq

/-- `MAX_PAYLOAD_SIZE` from the common crate. -/
def MAX_PAYLOAD_SIZE : Nat := 128

/-- `ip_hdr_len = (ip_hdr.version_ihl & 0x0F) * 4` — the IPv4 header
length the parser derives from the version/IHL byte (u8 arithmetic;
the result is at most `15 * 4 = 60`, so no overflow occurs). -/
def ipHeaderLen (versionIhl : Nat) : Nat := versionIhl % 16 * 4

/-- The manual payload copy loop of `try_aya_network_monitor` (the same
loop appears verbatim in the TCP, UDP and ICMP arms).  `fuel` plays the
role of `to_copy - i`: the Rust loop breaks when `i >= to_copy`, which
here is fuel exhaustion.  The loop also re-checks `src_ptr >= data_end`
before every single byte read and breaks if it fails.  Returns the
copied bytes together with the trace of buffer offsets actually read. -/
def copyGo (buf : List Nat) (start : Nat) : Nat → Nat → List Nat × List Nat
  | _, 0 => ([], [])
  | i, fuel + 1 =>
    if buf.length ≤ start + i then ([], [])
    else
      let r := copyGo buf start (i + 1) fuel
      (buf.getD (start + i) 0 :: r.1, (start + i) :: r.2)

/-- Payload capture: `payload = [0u8; 128]`, then, when
`payload_ptr < data_end`, copy `to_copy = min(available, 128)` bytes
with `copyGo` and set `payload_len` to the loop counter (which equals
the number of bytes copied).  Returns
`(payload array, payload_len, access trace)`. -/
def capturePayload (buf : List Nat) (start : Nat) :
    List Nat × Nat × List Nat :=
  if start < buf.length then
    let toCopy := min (buf.length - start) MAX_PAYLOAD_SIZE
    let r := copyGo buf start 0 toCopy
    (r.1 ++ List.replicate (MAX_PAYLOAD_SIZE - r.1.length) 0, r.1.length, r.2)
  else (List.replicate MAX_PAYLOAD_SIZE 0, 0, [])

/-- The `IPPROTO_TCP` arm: bounds-check the fixed 20-byte TCP header at
`l4`, read ports, data-offset and flags, locate the payload at
`l4 + (data_off >> 4) * 4` and capture it.  The trace lists the header
bytes read (src_port, dst_port, data_off, flags). -/
def tcpArm (buf : List Nat) (srcIp dstIp size l4 : Nat) :
    Option NetworkEvent × List Nat :=
  if l4 + 20 > buf.length then (none, [])
  else
    let tcpHdrLen := buf.getD (l4 + 12) 0 / 16 * 4
    let cap := capturePayload buf (l4 + tcpHdrLen)
    (some
      { protocol := 6
        src_ip := srcIp
        dst_ip := dstIp
        src_port := le16 (buf.getD l4 0) (buf.getD (l4 + 1) 0)
        dst_port := le16 (buf.getD (l4 + 2) 0) (buf.getD (l4 + 3) 0)
        packet_size := size
        tcp_flags := buf.getD (l4 + 13) 0
        payload_len := cap.2.1
        payload := cap.1 },
     [l4, l4 + 1, l4 + 2, l4 + 3, l4 + 12, l4 + 13] ++ cap.2.2)

/-- The `IPPROTO_UDP` arm: bounds-check the fixed 8-byte UDP header at
`l4`, read the two ports, capture the payload starting right after the
header.  `tcp_flags` is 0. -/
def udpArm (buf : List Nat) (srcIp dstIp size l4 : Nat) :
    Option NetworkEvent × List Nat :=
  if l4 + 8 > buf.length then (none, [])
  else
    let cap := capturePayload buf (l4 + 8)
    (some
      { protocol := 17
        src_ip := srcIp
        dst_ip := dstIp
        src_port := le16 (buf.getD l4 0) (buf.getD (l4 + 1) 0)
        dst_port := le16 (buf.getD (l4 + 2) 0) (buf.getD (l4 + 3) 0)
        packet_size := size
        tcp_flags := 0
        payload_len := cap.2.1
        payload := cap.1 },
     [l4, l4 + 1, l4 + 2, l4 + 3] ++ cap.2.2)

/-- The `IPPROTO_ICMP` arm: bounds-check the fixed 4-byte ICMP header at
`l4`; the code dereferences the header struct but reads none of its
fields, so the header contributes nothing to the access trace.  Ports
are 0, the payload starts right after the 4-byte header. -/
def icmpArm (buf : List Nat) (srcIp dstIp size l4 : Nat) :
    Option NetworkEvent × List Nat :=
  if l4 + 4 > buf.length then (none, [])
  else
    let cap := capturePayload buf (l4 + 4)
    (some
      { protocol := 1
        src_ip := srcIp
        dst_ip := dstIp
        src_port := 0
        dst_port := 0
        packet_size := size
        tcp_flags := 0
        payload_len := cap.2.1
        payload := cap.1 },
     cap.2.2)

/-- Shallow embedding of `try_aya_network_monitor`
(`aya-network-monitor-ebpf/src/main.rs`).  `data_ptr`/`data_end` become
offsets `0`/`buf.length`; the null-pointer guard of the source concerns
machine addresses and is vacuous in the offset model.  Each bounds
check `(ptr + size_of::<Hdr>()) > data_end` of the source appears as
the corresponding offset comparison, and each byte the source
dereferences is logged in the returned access trace.  The result is
`none` for a `Pass` verdict (no event) and `some ev` when the source
would emit `ev` on the perf array. -/
def parseTraced (buf : List Nat) : Option NetworkEvent × List Nat :=
  let len := buf.length
  if 14 > len then (none, [])
  else
    -- eth_hdr.ether_type occupies bytes 12..13; u16::from_be of the load
    let etherType := 256 * buf.getD 12 0 + buf.getD 13 0
    if etherType ≠ 0x0800 then (none, [12, 13])
    else if 14 + 20 > len then (none, [12, 13])
    else
      -- fields read from the IPv4 header at offset 14 (packed Ipv4Hdr:
      -- src_ip at struct offset 12, dst_ip at 16):
      -- version_ihl (14), protocol (23), src_ip (26..29), dst_ip (30..33)
      let trIp : List Nat := [12, 13, 14, 23, 26, 27, 28, 29, 30, 31, 32, 33]
      let protocol := buf.getD 23 0
      let srcIp := le32 (buf.getD 26 0) (buf.getD 27 0) (buf.getD 28 0)
        (buf.getD 29 0)
      let dstIp := le32 (buf.getD 30 0) (buf.getD 31 0) (buf.getD 32 0)
        (buf.getD 33 0)
      let l4 := 14 + ipHeaderLen (buf.getD 14 0)
      let size := len % 4294967296
      if protocol = 6 then
        let r := tcpArm buf srcIp dstIp size l4
        (r.1, trIp ++ r.2)
      else if protocol = 17 then
        let r := udpArm buf srcIp dstIp size l4
        (r.1, trIp ++ r.2)
      else if protocol = 1 then
        let r := icmpArm buf srcIp dstIp size l4
        (r.1, trIp ++ r.2)
      else (none, trIp)

/-- Parse verdict: `none` is `Pass`, `some ev` means the event `ev` is
emitted to user space. -/
def parse (buf : List Nat) : Option NetworkEvent := (parseTraced buf).1

/-- Every buffer offset the parser dereferences on input `buf`. -/
def parseAccesses (buf : List Nat) : List Nat := (parseTraced buf).2

/-- The bytes the copy loop transfers for a payload starting at `start`:
nothing when `payload_ptr >= data_end`, otherwise the `copyGo` output
for `to_copy = min(available, 128)`. -/
def payloadCopied (buf : List Nat) (start : Nat) : List Nat :=
  if start < buf.length then
    (copyGo buf start 0 (min (buf.length - start) MAX_PAYLOAD_SIZE)).1
  else []

/-- The `Filter` struct of `aya-network-monitor/src/main.rs`: five
optional criteria, each held in the same (wire) byte order as the
corresponding `NetworkEvent` field. -/
structure Filter where
  protocol : Option Nat
  src_ip : Option Nat
  dst_ip : Option Nat
  src_port : Option Nat
  dst_port : Option Nat
deriving DecidableEq

/-- `Filter::matches`: the source tests each present criterion in turn
and returns `false` at the first mismatch, `true` at the end; that
early-return chain is the conjunction below, one conjunct per
criterion in source order. -/
def Filter.matches (f : Filter) (e : NetworkEvent) : Bool :=
  (match f.protocol with | some p => e.protocol == p | none => true) &&
  (match f.src_ip with | some x => e.src_ip == x | none => true) &&
  (match f.dst_ip with | some x => e.dst_ip == x | none => true) &&
  (match f.src_port with | some x => e.src_port == x | none => true) &&
  (match f.dst_port with | some x => e.dst_port == x | none => true)

/-- A 54-byte well-formed minimal TCP frame: ether type `0x0800`,
`version_ihl = 0x45` (IHL 20), protocol 6, `data_off = 0x50`
(TCP header length 20), so the payload starts exactly at the buffer
end. -/
def sampleTcpBuf : List Nat :=
  List.replicate 12 0 ++ [0x08, 0x00] ++ [0x45] ++ List.replicate 8 0 ++
    [6] ++ List.replicate 22 0 ++ [0x50] ++ List.replicate 7 0

/-- The event the parser emits for `sampleTcpBuf`. -/
def sampleTcpEv : NetworkEvent :=
  { protocol := 6, src_ip := 0, dst_ip := 0, src_port := 0, dst_port := 0,
    packet_size := 54, tcp_flags := 0, payload_len := 0,
    payload := List.replicate 128 0 }

/-- A 34-byte frame whose version/IHL byte is `0x40`: the low nibble is
0, so the parser computes an IPv4 header length of 0 and reads the TCP
header at offset 14, on top of the IP header itself.  Protocol byte 6;
the IPv4 address fields (buffer offsets 26..29 and 30..33) hold
`3.4.5.6` and `7.8.9.10`. -/
def ihl0Buf : List Nat :=
  List.replicate 12 0 ++ [0x08, 0x00] ++ [0x40, 0x07] ++
    List.replicate 7 0 ++ [6] ++ [1, 2, 3, 4] ++ [5, 6, 7, 8] ++ [9, 10]

/-- Two events with identical header fields but different sizes, flags
and payloads (used to witness that filtering ignores the latter). -/
def evHeaderA : NetworkEvent :=
  { protocol := 6, src_ip := 1, dst_ip := 2, src_port := 3, dst_port := 4,
    packet_size := 100, tcp_flags := 2, payload_len := 5,
    payload := [1, 2, 3, 4, 5] }

/-- Companion of `evHeaderA`: same five header fields, everything else
different. -/
def evHeaderB : NetworkEvent :=
  { protocol := 6, src_ip := 1, dst_ip := 2, src_port := 3, dst_port := 4,
    packet_size := 999, tcp_flags := 16, payload_len := 0, payload := [] }

/-- A TCP event on destination port 80 (wire order `0x5000 = 20480`)
whose 5-byte payload `"hello"` is not HTTP. -/
def evHttpText : NetworkEvent :=
  { protocol := 6, src_ip := 0, dst_ip := 0, src_port := 0,
    dst_port := 20480, packet_size := 60, tcp_flags := 0, payload_len := 5,
    payload := [104, 101, 108, 108, 111] ++ List.replicate 123 0 }

/-! Renderer infrastructure (`aya-network-monitor/src/main.rs`).
Rust `String`s are modelled as `List Char`. -/

/-- Decimal rendering of a `Nat`, as Rust `format!("{}", n)`. -/
def natChars (n : Nat) : List Char := (Nat.repr n).data

/-- Prepend a character to the first line of a line list (helper for
the newline splitters). -/
def consHead (c : Char) : List (List Char) → List (List Char)
  | [] => [[c]]
  | l :: ls => (c :: l) :: ls

/-- Split a character list at `'\n'` terminators: `"a\nb"` gives
`["a", "b"]`, `"a\n"` gives `["a"]`, `""` gives `[]`.  This is the
reparsing-side line splitter used to inspect renderer output. -/
def splitNl : List Char → List (List Char)
  | [] => []
  | c :: r => if c = '\n' then [] :: splitNl r else consHead c (splitNl r)

/-- Rust `str::split_inclusive('\n')`: pieces keep their terminator,
and a trailing terminator yields no extra empty piece. -/
def splitIncNl : List Char → List (List Char)
  | [] => []
  | c :: r => if c = '\n' then [c] :: splitIncNl r else consHead c (splitIncNl r)

/-- The per-line map of Rust `str::lines`: strip one trailing `'\n'`,
and after that one trailing `'\r'` (a `'\r'` not followed by `'\n'` is
kept). -/
def lineMap (l : List Char) : List Char :=
  if l.getLast? = some '\n' then
    let l1 := l.dropLast
    if l1.getLast? = some '\r' then l1.dropLast else l1
  else l

/-- Rust `str::lines`. -/
def rustLines (cs : List Char) : List (List Char) := (splitIncNl cs).map lineMap

/-- Rust `char::is_whitespace` (the Unicode White_Space property),
enumerated by code point. -/
def rustIsWhitespace (c : Char) : Bool :=
  [9, 10, 11, 12, 13, 32, 133, 160, 5760, 8192, 8193, 8194, 8195, 8196, 8197,
    8198, 8199, 8200, 8201, 8202, 8232, 8233, 8239, 8287, 12288].contains
    c.toNat

/-- Rust `str::trim`: drop White_Space characters at both ends. -/
def rustTrim (l : List Char) : List Char :=
  ((l.dropWhile rustIsWhitespace).reverse.dropWhile rustIsWhitespace).reverse

/-- Boolean list version of Rust `str::starts_with` on decoded text. -/
def startsWithChars : List Char → List Char → Bool
  | [], _ => true
  | _ :: _, [] => false
  | p :: ps, c :: cs => p == c && startsWithChars ps cs

/-- Rust `String::from_utf8_lossy`, fuel-driven worker.  Follows the
std validation table: lead bytes `C2..DF` take one continuation
`80..BF`; `E0`/`E1..EC,EE,EF`/`ED` take two with first-continuation
ranges `A0..BF`/`80..BF`/`80..9F`; `F0`/`F1..F3`/`F4` take three with
first-continuation ranges `90..BF`/`80..BF`/`80..8F`.  A maximal valid
prefix of a rejected sequence is replaced by one U+FFFD and decoding
resumes at the offending byte.  Each step consumes at least one byte,
so fuel = input length suffices. -/
def utf8Go : Nat → List Nat → List Char
  | 0, _ => []
  | _ + 1, [] => []
  | f + 1, b :: rest =>
    if b < 0x80 then Char.ofNat b :: utf8Go f rest
    else if b < 0xC2 then '�' :: utf8Go f rest
    else if b ≤ 0xDF then
      match rest with
      | [] => ['�']
      | b2 :: r2 =>
        if 0x80 ≤ b2 ∧ b2 ≤ 0xBF then
          Char.ofNat ((b - 0xC0) * 64 + (b2 - 0x80)) :: utf8Go f r2
        else '�' :: utf8Go f rest
    else if b ≤ 0xEF then
      let lo2 := if b = 0xE0 then 0xA0 else 0x80
      let hi2 := if b = 0xED then 0x9F else 0xBF
      match rest with
      | [] => ['�']
      | b2 :: r2 =>
        if lo2 ≤ b2 ∧ b2 ≤ hi2 then
          match r2 with
          | [] => ['�']
          | b3 :: r3 =>
            if 0x80 ≤ b3 ∧ b3 ≤ 0xBF then
              Char.ofNat ((b - 0xE0) * 4096 + (b2 - 0x80) * 64 + (b3 - 0x80)) ::
                utf8Go f r3
            else '�' :: utf8Go f r2
        else '�' :: utf8Go f rest
    else if b ≤ 0xF4 then
      let lo2 := if b = 0xF0 then 0x90 else 0x80
      let hi2 := if b = 0xF4 then 0x8F else 0xBF
      match rest with
      | [] => ['�']
      | b2 :: r2 =>
        if lo2 ≤ b2 ∧ b2 ≤ hi2 then
          match r2 with
          | [] => ['�']
          | b3 :: r3 =>
            if 0x80 ≤ b3 ∧ b3 ≤ 0xBF then
              match r3 with
              | [] => ['�']
              | b4 :: r4 =>
                if 0x80 ≤ b4 ∧ b4 ≤ 0xBF then
                  Char.ofNat ((b - 0xF0) * 262144 + (b2 - 0x80) * 4096 +
                    (b3 - 0x80) * 64 + (b4 - 0x80)) :: utf8Go f r4
                else '�' :: utf8Go f r3
            else '�' :: utf8Go f r2
        else '�' :: utf8Go f rest
    else '�' :: utf8Go f rest

/-- Rust `String::from_utf8_lossy`. -/
def decodeUtf8Lossy (bytes : List Nat) : List Char := utf8Go bytes.length bytes

/-- Rust `{:x}` digit (`Nat.digitChar` is lowercase `0-9a-f`). -/
def hexByte (b : Nat) : List Char :=
  [Nat.digitChar (b / 16), Nat.digitChar (b % 16)]

/-- Rust `{:04x}` for values below `0x10000` (row offsets here are at
most 112). -/
def hexWord4 (n : Nat) : List Char :=
  [Nat.digitChar (n / 4096 % 16), Nat.digitChar (n / 256 % 16),
   Nat.digitChar (n / 16 % 16), Nat.digitChar (n % 16)]

/-- Rust `u8::is_ascii_graphic`: `0x21..=0x7E`. -/
def isAsciiGraphicB (b : Nat) : Bool := 33 ≤ b && b ≤ 126

/-- Rust `u8::is_ascii_whitespace`: space, `\t`, `\n`, form feed,
`\r`. -/
def isAsciiWhitespaceB (b : Nat) : Bool :=
  b == 32 || b == 9 || b == 10 || b == 12 || b == 13

/-- One character of the ASCII column of a hex dump row: the byte
itself when graphic or a space, `'.'` otherwise. -/
def asciiCell (b : Nat) : Char :=
  if isAsciiGraphicB b || b == 32 then Char.ofNat b else '.'

/-- The hex columns of one dump row: `"{:02x} "` per byte, with the
extra space the source pushes after column 7.  `j` is the absolute
column index within the row. -/
def hexCells : Nat → List Nat → List Char
  | _, [] => []
  | j, b :: bs =>
    hexByte b ++ [' '] ++ (if j = 7 then [' '] else []) ++ hexCells (j + 1) bs

/-- The padding loop `for j in chunk.len()..16`: three spaces per
missing column, with the same extra space after column 7.  `k` is the
number of remaining columns (`16 - j`). -/
def padGo : Nat → Nat → List Char
  | _, 0 => []
  | j, k + 1 =>
    [' ', ' ', ' '] ++ (if j = 7 then [' '] else []) ++ padGo (j + 1) k

/-- One row of a hex dump (without the trailing newline): 4-hex-digit
offset, `": "`, hex columns, padding, two-space gutter, ASCII column. -/
def mkRow (off : Nat) (chunk : List Nat) : List Char :=
  hexWord4 off ++ [':', ' '] ++ hexCells 0 chunk ++
    padGo chunk.length (16 - chunk.length) ++ [' ', ' '] ++ chunk.map asciiCell

/-- Append a newline to each line and concatenate. -/
def linesJoin (ls : List (List Char)) : List Char :=
  (ls.map (fun l => l ++ ['\n'])).flatten

/-- The rows of `format_hex_dump`: row `i` shows bytes
`16*i .. 16*i+15` of the shown range (Rust `chunks(16).enumerate()`). -/
def dumpRows (shown : List Nat) (totalLines : Nat) : List (List Char) :=
  (List.range totalLines).map (fun i => mkRow (i * 16) ((shown.drop (i * 16)).take 16))

/-- `format_hex_dump(payload, bytes_to_show)`: clamp `bytes_to_show` to
the payload length, then one newline-terminated row per 16-byte
chunk. -/
def format_hex_dump (payload : List Nat) (bytesToShow : Nat) : List Char :=
  let n := min bytesToShow payload.length
  linesJoin (dumpRows (payload.take n) ((n + 15) / 16))

/-- A page header of `format_hex_dump_paged`:
`"--- 页 {page+1} ({start_byte}-{end_byte - 1} 字节) ---"`. -/
def pageHeader (pnum startByte endByte : Nat) : List Char :=
  "--- 页 ".data ++ natChars pnum ++ " (".data ++ natChars startByte ++
    "-".data ++ natChars (endByte - 1) ++ " 字节) ---".data

/-- The line list of one page: the page header, the page's rows, and —
for every page but the last — the blank separator line the source
emits as an extra `'\n'`. -/
def pageLineList (shown : List Nat) (n pageLines totalLines pages page : Nat) :
    List (List Char) :=
  let startLine := page * pageLines
  let endLine := min ((page + 1) * pageLines) totalLines
  pageHeader (page + 1) (startLine * 16) (min (endLine * 16) n) ::
    (List.range' startLine (endLine - startLine)).map
      (fun line => mkRow (line * 16) ((shown.drop (line * 16)).take 16)) ++
    (if page < pages - 1 then [[]] else [])

/-- All lines of the paged dump. -/
def pagedLines (shown : List Nat) (n pageLines totalLines pages : Nat) :
    List (List Char) :=
  ((List.range pages).map (pageLineList shown n pageLines totalLines pages)).flatten

/-- `format_hex_dump_paged(payload, bytes_to_show, page_lines)`. -/
def format_hex_dump_paged (payload : List Nat) (bytesToShow pageLines : Nat) :
    List Char :=
  let n := min bytesToShow payload.length
  if pageLines = 0 then format_hex_dump payload n
  else
    let totalLines := (n + 15) / 16
    let pages := (totalLines + pageLines - 1) / pageLines
    linesJoin (pagedLines (payload.take n) n pageLines totalLines pages)

/-- `format_protocol`. -/
def format_protocol (p : Nat) : List Char :=
  if p = 6 then "TCP".data
  else if p = 17 then "UDP".data
  else if p = 1 then "ICMP".data
  else "UNKNOWN".data

/-- `format_ip`: convert wire to host order with `u32::from_be`, then
print the four bytes from most significant down, dot-separated. -/
def format_ip (ip : Nat) : List Char :=
  let v := from_be32 ip
  natChars (v / 16777216 % 256) ++ ".".data ++ natChars (v / 65536 % 256) ++
    ".".data ++ natChars (v / 256 % 256) ++ ".".data ++ natChars (v % 256)

/-- `format_event` (the Basic line): TCP/UDP show ports (converted with
`u16::from_be`), the ICMP arm and the catch-all arm of the source both
render without ports. -/
def format_event (ev : NetworkEvent) : List Char :=
  if ev.protocol = 6 ∨ ev.protocol = 17 then
    format_protocol ev.protocol ++ " ".data ++ format_ip ev.src_ip ++
      ":".data ++ natChars (from_be16 ev.src_port) ++ " -> ".data ++
      format_ip ev.dst_ip ++ ":".data ++ natChars (from_be16 ev.dst_port) ++
      " (".data ++ natChars ev.packet_size ++ "b)".data
  else
    format_protocol ev.protocol ++ " ".data ++ format_ip ev.src_ip ++
      " -> ".data ++ format_ip ev.dst_ip ++ " (".data ++
      natChars ev.packet_size ++ "b)".data

/-- `format_text_payload`: count printable-or-whitespace bytes; the
source compares `printable_count as f64 / payload.len() as f64 > 0.8`.
For `0 ≤ p ≤ n` with `n` bounded by the 128-byte capture, `p/n` and the
literal `0.8` are far enough apart (at least `1/(5n)`, far above one
ulp) whenever `5p ≠ 4n`, and when `5p = 4n` both sides round to the
same double, so the f64 comparison is exactly the rational test
`5 * p > 4 * n` (false for the empty payload, where the source computes
`NaN > 0.8`).  On the text path: lossy-decode, first 10 lines, each
indented two spaces, joined with `'\n'` (no trailing newline);
otherwise the full hex dump of the payload. -/
def format_text_payload (payload : List Nat) : List Char :=
  let printableCount :=
    (payload.filter (fun b => isAsciiGraphicB b || isAsciiWhitespaceB b)).length
  if 5 * printableCount > 4 * payload.length ∧ 0 < payload.length then
    List.intercalate ['\n']
      (((rustLines (decodeUtf8Lossy payload)).take 10).map
        (fun line => "  ".data ++ line))
  else format_hex_dump payload payload.length

/-- The HTTP request-method check of `parse_http` on the trimmed first
line. -/
def isHttpReqStart (l : List Char) : Bool :=
  startsWithChars "GET ".data l || startsWithChars "POST ".data l ||
    startsWithChars "PUT ".data l || startsWithChars "DELETE ".data l ||
    startsWithChars "HEAD ".data l || startsWithChars "OPTIONS ".data l ||
    startsWithChars "PATCH ".data l

/-- The header-emission loop of `parse_http`: up to 20 lines have
already been selected by `take 20`; trim each, stop at the first line
that is blank after trimming, emit the others indented. -/
def httpTail : List (List Char) → List Char
  | [] => []
  | l :: ls =>
    let t := rustTrim l
    if t.isEmpty then [] else "  ".data ++ t ++ ['\n'] ++ httpTail ls

/-- `parse_http`: lossy-decode the payload, split into lines; `None`
when there are no lines; otherwise trim the first line and test it for
a request method or the `"HTTP/"` response marker; on a match emit the
banner, the trimmed first line, and `httpTail` of the next 20 lines. -/
def parse_http (payload : List Nat) : Option (List Char) :=
  match rustLines (decodeUtf8Lossy payload) with
  | [] => none
  | l0 :: rest =>
    let firstLine := rustTrim l0
    if isHttpReqStart firstLine then
      some ("HTTP Request:\n".data ++ "  ".data ++ firstLine ++ ['\n'] ++
        httpTail (rest.take 20))
    else if startsWithChars "HTTP/".data firstLine then
      some ("HTTP Response:\n".data ++ "  ".data ++ firstLine ++ ['\n'] ++
        httpTail (rest.take 20))
    else none

/-- The DNS QTYPE names of `parse_dns`. -/
def dnsTypeStr (qtype : Nat) : List Char :=
  if qtype = 1 then "A".data
  else if qtype = 2 then "NS".data
  else if qtype = 5 then "CNAME".data
  else if qtype = 28 then "AAAA".data
  else "UNKNOWN".data

/-- The label loop of `parse_dns`: read a length byte, stop on 0 or
when the label would cross the payload end, otherwise append the
lossily decoded label (dot-separated) and continue.  Each step advances
`pos` by at least one, so fuel = payload length suffices.  Returns the
domain text and the final `pos`. -/
def dnsDomainGo (payload : List Nat) : Nat → Nat → List Char → List Char × Nat
  | 0, pos, domain => (domain, pos)
  | fuel + 1, pos, domain =>
    if pos ≥ payload.length then (domain, pos)
    else
      let len := payload.getD pos 0
      let pos1 := pos + 1
      if len = 0 then (domain, pos1)
      else if pos1 + len > payload.length then (domain, pos1)
      else
        let label := decodeUtf8Lossy ((payload.drop pos1).take len)
        dnsDomainGo payload fuel (pos1 + len)
          (if domain.isEmpty then label else domain ++ ".".data ++ label)

/-- The question loop of `parse_dns` (`for i in 0..question_count`,
with the two early `break`s of the source). -/
def dnsQuestionsGo (payload : List Nat) : Nat → Nat → Nat → List Char
  | 0, _, _ => []
  | remaining + 1, i, pos =>
    if pos ≥ payload.length then []
    else
      let d := dnsDomainGo payload payload.length pos []
      "  Query ".data ++ natChars (i + 1) ++ ": ".data ++ d.1 ++
        (if d.2 + 4 > payload.length then []
         else
           let qtype := 256 * payload.getD d.2 0 + payload.getD (d.2 + 1) 0
           " (type: ".data ++ dnsTypeStr qtype ++ ")\n".data ++
             dnsQuestionsGo payload remaining (i + 1) (d.2 + 4))

/-- `parse_dns`: need at least 12 bytes; read the big-endian flags word
at offset 2 (bit 15 = response) and the question count at offset 4,
then run the question loop from offset 12. -/
def parse_dns (payload : List Nat) : Option (List Char) :=
  if payload.length < 12 then none
  else
    let flags := 256 * payload.getD 2 0 + payload.getD 3 0
    let questionCount := 256 * payload.getD 4 0 + payload.getD 5 0
    some ((if flags / 32768 % 2 = 1 then "DNS Response".data
           else "DNS Query".data) ++
      " (".data ++ natChars questionCount ++ " questions)\n".data ++
      dnsQuestionsGo payload questionCount 0 12)

/-- The header line of `format_protocol_parse`: same text as
`format_event` but written by its own `format!` calls in the source,
with a trailing newline.  TCP and UDP show ports, every other protocol
does not. -/
def protoHeader (ev : NetworkEvent) : List Char :=
  (if ev.protocol = 6 ∨ ev.protocol = 17 then
    format_protocol ev.protocol ++ " ".data ++ format_ip ev.src_ip ++
      ":".data ++ natChars (from_be16 ev.src_port) ++ " -> ".data ++
      format_ip ev.dst_ip ++ ":".data ++ natChars (from_be16 ev.dst_port) ++
      " (".data ++ natChars ev.packet_size ++ "b)".data
  else
    format_protocol ev.protocol ++ " ".data ++ format_ip ev.src_ip ++
      " -> ".data ++ format_ip ev.dst_ip ++ " (".data ++
      natChars ev.packet_size ++ "b)".data) ++ ['\n']

/-- `format_protocol_parse`: try HTTP for TCP with a port-80 endpoint,
then DNS for UDP with a port-53 endpoint (the source's early returns
become the two option matches), else fall back to
`format_text_payload`. -/
def format_protocol_parse (ev : NetworkEvent) : List Char :=
  let payload := ev.payload.take ev.payload_len
  let httpRes : Option (List Char) :=
    if ev.protocol = 6 ∧
        (from_be16 ev.dst_port = 80 ∨ from_be16 ev.src_port = 80) then
      parse_http payload
    else none
  match httpRes with
  | some http => protoHeader ev ++ http
  | none =>
    let dnsRes : Option (List Char) :=
      if ev.protocol = 17 ∧
          (from_be16 ev.dst_port = 53 ∨ from_be16 ev.src_port = 53) then
        parse_dns payload
      else none
    match dnsRes with
    | some dns => protoHeader ev ++ dns
    | none => protoHeader ev ++ format_text_payload payload

/-- The `JsonEvent` struct serialized by `format_json`; the wall-clock
timestamp (`SystemTime::now`, seconds) is an external input of the
model. -/
structure JsonEvent where
  timestamp : Nat
  protocol : List Char
  src_ip : List Char
  dst_ip : List Char
  src_port : Nat
  dst_port : Nat
  packet_size : Nat
  tcp_flags : Nat
  payload_len : Nat
  payload_hex : List Char

/-- The `JsonEvent` built by `format_json`: ports converted to host
order, `payload_hex` = `"{:02x}"` of each captured payload byte joined
with single spaces. -/
def jsonEventOf (ts : Nat) (ev : NetworkEvent) : JsonEvent :=
  { timestamp := ts
    protocol := format_protocol ev.protocol
    src_ip := format_ip ev.src_ip
    dst_ip := format_ip ev.dst_ip
    src_port := from_be16 ev.src_port
    dst_port := from_be16 ev.dst_port
    packet_size := ev.packet_size
    tcp_flags := ev.tcp_flags
    payload_len := ev.payload_len
    payload_hex :=
      List.intercalate [' '] ((ev.payload.take ev.payload_len).map hexByte) }

/-- serde_json compact serialization of a `JsonEvent` (field order as
declared; none of the string fields contains a character that needs
escaping). -/
def format_json (ts : Nat) (ev : NetworkEvent) : List Char :=
  let j := jsonEventOf ts ev
  "\x7b\"timestamp\":".data ++ natChars j.timestamp ++
    ",\"protocol\":\"".data ++ j.protocol ++
    "\",\"src_ip\":\"".data ++ j.src_ip ++
    "\",\"dst_ip\":\"".data ++ j.dst_ip ++
    "\",\"src_port\":".data ++ natChars j.src_port ++
    ",\"dst_port\":".data ++ natChars j.dst_port ++
    ",\"packet_size\":".data ++ natChars j.packet_size ++
    ",\"tcp_flags\":".data ++ natChars j.tcp_flags ++
    ",\"payload_len\":".data ++ natChars j.payload_len ++
    ",\"payload_hex\":\"".data ++ j.payload_hex ++ "\"\x7d".data

/-- `DisplayMode` (the CLI `Basic` default is irrelevant here). -/
inductive DisplayMode where
  | Basic
  | Hex
  | Text
  | Protocol
  | Json
deriving DecidableEq

/-- The line between the Basic line and the dump in Hex mode:
`"Payload ({payload_len} bytes, 显示 {effective} bytes):"`. -/
def payloadHeaderLine (plen eff : Nat) : List Char :=
  "Payload (".data ++ natChars plen ++ " bytes, 显示 ".data ++
    natChars eff ++ " bytes):".data

/-- The `effective_bytes` computation of `format_event_with_mode`:
the whole captured payload under `--payload-full`, otherwise at most
the requested byte count. -/
def effBytes (payloadBytes : Nat) (payloadFull : Bool) (plen : Nat) : Nat :=
  if payloadFull then plen else min payloadBytes plen

/-- `format_event_with_mode`.  `effective_bytes` is the source's
payload display size; the Hex-mode text `"\nPayload (…):\n"` is written
here as explicit `'\n'` conses around `payloadHeaderLine` (same
character sequence). -/
def format_event_with_mode (ts : Nat) (ev : NetworkEvent)
    (mode : DisplayMode) (payloadBytes : Nat) (payloadFull : Bool)
    (pageLines : Nat) : List Char :=
  let effectiveBytes := effBytes payloadBytes payloadFull ev.payload_len
  match mode with
  | .Basic => format_event ev
  | .Hex =>
    format_event ev ++ '\n' ::
      (payloadHeaderLine ev.payload_len effectiveBytes ++ '\n' ::
        (if 0 < pageLines ∧ pageLines * 16 < effectiveBytes then
          format_hex_dump_paged (ev.payload.take ev.payload_len)
            effectiveBytes pageLines
        else
          format_hex_dump (ev.payload.take ev.payload_len) effectiveBytes))
  | .Text =>
    format_event ev ++
      (if 0 < ev.payload_len then
        "\nContent:\n".data ++ format_text_payload (ev.payload.take effectiveBytes)
      else [])
  | .Protocol => format_protocol_parse ev
  | .Json => format_json ts ev

/-! Reparsing-side definitions for the hex-dump round trip. -/

/-- Lowercase-hex digit test on a character. -/
def isHexDigitChar (c : Char) : Bool :=
  (48 ≤ c.toNat && c.toNat ≤ 57) || (97 ≤ c.toNat && c.toNat ≤ 102)

/-- Value of a lowercase-hex digit character. -/
def hexCharVal (c : Char) : Nat :=
  if 97 ≤ c.toNat then c.toNat - 87 else c.toNat - 48

/-- Read back the byte columns of one dump row body: up to 16 entries,
each two hex digits followed by one separator space (two after column
7); stop at the first non-hex position (the padding or the gutter). -/
def extractRowGo : Nat → Nat → List Char → List Nat
  | 0, _, _ => []
  | _ + 1, _, [] => []
  | _ + 1, _, [_] => []
  | f + 1, j, c1 :: c2 :: rest =>
    if isHexDigitChar c1 && isHexDigitChar c2 then
      (hexCharVal c1 * 16 + hexCharVal c2) ::
        extractRowGo f (j + 1) (rest.drop (if j = 7 then 2 else 1))
    else []

/-- Read back the bytes of one dump row (skip the 6-character
`"{:04x}: "` offset column first). -/
def extractRow (line : List Char) : List Nat := extractRowGo 16 0 (line.drop 6)

/-- Re-parse a whole hex dump: split into lines, read each row's byte
columns back, concatenate. -/
def reparseHexDump (out : List Char) : List Nat :=
  ((splitNl out).map extractRow).flatten

end AyaNM

namespace AyaNM

/-! Helper lemmas about the copy loop and payload capture. -/

theorem copyGo_trace_lt (buf : List Nat) (start : Nat) :
    ∀ fuel i j, j ∈ (copyGo buf start i fuel).2 → j < buf.length := by
  intro fuel
  induction fuel with
  | zero => intro i j hj; simp [copyGo] at hj
  | succ n ih =>
    intro i j hj
    unfold copyGo at hj
    split at hj
    · simp at hj
    · simp only [List.mem_cons] at hj
      rcases hj with hj | hj
      · omega
      · exact ih (i + 1) j hj

theorem copyGo_fst_length (buf : List Nat) (start : Nat) :
    ∀ fuel i, start + i + fuel ≤ buf.length →
      (copyGo buf start i fuel).1.length = fuel := by
  intro fuel
  induction fuel with
  | zero => intro i _; simp [copyGo]
  | succ n ih =>
    intro i h
    unfold copyGo
    split
    · omega
    · simpa using ih (i + 1) (by omega)

theorem capturePayload_trace_lt (buf : List Nat) (start : Nat) :
    ∀ j ∈ (capturePayload buf start).2.2, j < buf.length := by
  intro j hj
  unfold capturePayload at hj
  split at hj
  · exact copyGo_trace_lt buf start _ 0 j hj
  · simp at hj

theorem capturePayload_fst (buf : List Nat) (start : Nat) :
    (capturePayload buf start).1 =
      payloadCopied buf start ++
        List.replicate (MAX_PAYLOAD_SIZE - (payloadCopied buf start).length) 0 := by
  unfold capturePayload payloadCopied
  split <;> simp

theorem capturePayload_count (buf : List Nat) (start : Nat) :
    (capturePayload buf start).2.1 = (payloadCopied buf start).length := by
  unfold capturePayload payloadCopied
  split <;> simp

theorem payloadCopied_length (buf : List Nat) (start : Nat) :
    (payloadCopied buf start).length =
      if start < buf.length then min (buf.length - start) MAX_PAYLOAD_SIZE
      else 0 := by
  unfold payloadCopied
  split
  · exact copyGo_fst_length buf start _ 0 (by unfold MAX_PAYLOAD_SIZE; omega)
  · simp

/-! Arm-level lemmas used to analyse `parseTraced`. -/

theorem tcpArm_trace_lt (buf : List Nat) (a b c l4 : Nat) :
    ∀ j ∈ (tcpArm buf a b c l4).2, j < buf.length := by
  intro j hj
  unfold tcpArm at hj
  split at hj
  · simp at hj
  · simp only [List.mem_append, List.mem_cons, List.not_mem_nil, or_false] at hj
    rcases hj with hj | hj
    · omega
    · exact capturePayload_trace_lt buf _ j hj

theorem udpArm_trace_lt (buf : List Nat) (a b c l4 : Nat) :
    ∀ j ∈ (udpArm buf a b c l4).2, j < buf.length := by
  intro j hj
  unfold udpArm at hj
  split at hj
  · simp at hj
  · simp only [List.mem_append, List.mem_cons, List.not_mem_nil, or_false] at hj
    rcases hj with hj | hj
    · omega
    · exact capturePayload_trace_lt buf _ j hj

theorem icmpArm_trace_lt (buf : List Nat) (a b c l4 : Nat) :
    ∀ j ∈ (icmpArm buf a b c l4).2, j < buf.length := by
  intro j hj
  unfold icmpArm at hj
  split at hj
  · simp at hj
  · exact capturePayload_trace_lt buf _ j hj

theorem tcpArm_some (buf : List Nat) (a b c l4 : Nat) (ev : NetworkEvent)
    (h : (tcpArm buf a b c l4).1 = some ev) :
    ev = { protocol := 6, src_ip := a, dst_ip := b,
           src_port := le16 (buf.getD l4 0) (buf.getD (l4 + 1) 0),
           dst_port := le16 (buf.getD (l4 + 2) 0) (buf.getD (l4 + 3) 0),
           packet_size := c, tcp_flags := buf.getD (l4 + 13) 0,
           payload_len :=
             (capturePayload buf (l4 + buf.getD (l4 + 12) 0 / 16 * 4)).2.1,
           payload :=
             (capturePayload buf (l4 + buf.getD (l4 + 12) 0 / 16 * 4)).1 } := by
  unfold tcpArm at h
  split at h
  · simp at h
  · simp only [Option.some.injEq] at h
    exact h.symm

theorem udpArm_some (buf : List Nat) (a b c l4 : Nat) (ev : NetworkEvent)
    (h : (udpArm buf a b c l4).1 = some ev) :
    ev = { protocol := 17, src_ip := a, dst_ip := b,
           src_port := le16 (buf.getD l4 0) (buf.getD (l4 + 1) 0),
           dst_port := le16 (buf.getD (l4 + 2) 0) (buf.getD (l4 + 3) 0),
           packet_size := c, tcp_flags := 0,
           payload_len := (capturePayload buf (l4 + 8)).2.1,
           payload := (capturePayload buf (l4 + 8)).1 } := by
  unfold udpArm at h
  split at h
  · simp at h
  · simp only [Option.some.injEq] at h
    exact h.symm

theorem icmpArm_some (buf : List Nat) (a b c l4 : Nat) (ev : NetworkEvent)
    (h : (icmpArm buf a b c l4).1 = some ev) :
    ev = { protocol := 1, src_ip := a, dst_ip := b,
           src_port := 0, dst_port := 0,
           packet_size := c, tcp_flags := 0,
           payload_len := (capturePayload buf (l4 + 4)).2.1,
           payload := (capturePayload buf (l4 + 4)).1 } := by
  unfold icmpArm at h
  split at h
  · simp at h
  · simp only [Option.some.injEq] at h
    exact h.symm

/-- Any event the parser emits came from one of the three protocol
arms, invoked at the L4 offset `14 + ipHeaderLen (buf[14])`. -/
theorem parse_some_arm (buf : List Nat) (ev : NetworkEvent)
    (h : parse buf = some ev) :
    (tcpArm buf (le32 (buf.getD 26 0) (buf.getD 27 0) (buf.getD 28 0)
        (buf.getD 29 0)) (le32 (buf.getD 30 0) (buf.getD 31 0)
        (buf.getD 32 0) (buf.getD 33 0)) (buf.length % 4294967296)
        (14 + ipHeaderLen (buf.getD 14 0))).1 = some ev ∨
    (udpArm buf (le32 (buf.getD 26 0) (buf.getD 27 0) (buf.getD 28 0)
        (buf.getD 29 0)) (le32 (buf.getD 30 0) (buf.getD 31 0)
        (buf.getD 32 0) (buf.getD 33 0)) (buf.length % 4294967296)
        (14 + ipHeaderLen (buf.getD 14 0))).1 = some ev ∨
    (icmpArm buf (le32 (buf.getD 26 0) (buf.getD 27 0) (buf.getD 28 0)
        (buf.getD 29 0)) (le32 (buf.getD 30 0) (buf.getD 31 0)
        (buf.getD 32 0) (buf.getD 33 0)) (buf.length % 4294967296)
        (14 + ipHeaderLen (buf.getD 14 0))).1 = some ev := by
  unfold parse parseTraced at h
  simp only at h
  split at h
  · simp at h
  · split at h
    · simp at h
    · split at h
      · simp at h
      · split at h
        · exact Or.inl h
        · split at h
          · exact Or.inr (Or.inl h)
          · split at h
            · exact Or.inr (Or.inr h)
            · simp at h

end AyaNM

namespace AyaNM

/-! Claim C1 — parser memory safety. -/

/-- C1: for every input buffer, of any length and contents, the packet
parser only dereferences offsets inside `[0, buf.length)`; moreover any
buffer too short for the Ethernet + IPv4 headers yields `Pass`
(no event). -/
theorem parser_no_out_of_bounds :
    (∀ (buf : List Nat) (i : Nat), i ∈ parseAccesses buf → i < buf.length) ∧
    (∀ buf : List Nat, buf.length < 34 → parse buf = none) := by
  constructor
  · intro buf i hi
    unfold parseAccesses parseTraced at hi
    simp only at hi
    split at hi
    · simp at hi
    · split at hi
      · simp only [List.mem_cons, List.not_mem_nil, or_false] at hi
        rcases hi with rfl | rfl <;> omega
      · split at hi
        · simp only [List.mem_cons, List.not_mem_nil, or_false] at hi
          rcases hi with rfl | rfl <;> omega
        · split at hi
          · rcases List.mem_append.1 hi with h | h
            · simp only [List.mem_cons, List.not_mem_nil, or_false] at h
              rcases h with rfl | rfl | rfl | rfl | rfl | rfl | rfl | rfl |
                rfl | rfl | rfl | rfl <;> omega
            · exact tcpArm_trace_lt buf _ _ _ _ i h
          · split at hi
            · rcases List.mem_append.1 hi with h | h
              · simp only [List.mem_cons, List.not_mem_nil, or_false] at h
                rcases h with rfl | rfl | rfl | rfl | rfl | rfl | rfl | rfl |
                  rfl | rfl | rfl | rfl <;> omega
              · exact udpArm_trace_lt buf _ _ _ _ i h
            · split at hi
              · rcases List.mem_append.1 hi with h | h
                · simp only [List.mem_cons, List.not_mem_nil, or_false] at h
                  rcases h with rfl | rfl | rfl | rfl | rfl | rfl | rfl | rfl |
                    rfl | rfl | rfl | rfl <;> omega
                · exact icmpArm_trace_lt buf _ _ _ _ i h
              · simp only [List.mem_cons, List.not_mem_nil, or_false] at hi
                rcases hi with rfl | rfl | rfl | rfl | rfl | rfl | rfl | rfl |
                  rfl | rfl | rfl | rfl <;> omega
  · intro buf hlen
    unfold parse parseTraced
    simp only
    repeat' split
    all_goals first | rfl | omega

/-- Witness for C1 at concrete inputs: offset 12 is accessed on a
14-byte buffer and is in bounds, and a 10-byte buffer yields `Pass`. -/
theorem parser_no_out_of_bounds_witness :
    12 < (List.replicate 14 (0 : Nat)).length ∧
      parse (List.replicate 10 0) = none :=
  ⟨parser_no_out_of_bounds.1 (List.replicate 14 0) 12 (by decide),
   parser_no_out_of_bounds.2 (List.replicate 10 0) (by decide)⟩

/-! Claim C2 — payload length invariant. -/

/-- C2: every emitted event has `payload_len ≤ 128`, and `payload_len`
equals the number of bytes the copy loop transferred, which is
`min(bytes available to the buffer end, 128)` (0 when the payload
offset is at or past the end). -/
theorem event_payload_len_spec :
    ∀ (buf : List Nat) (ev : NetworkEvent), parse buf = some ev →
      ev.payload_len ≤ 128 ∧
      ∃ start : Nat,
        ev.payload_len = (payloadCopied buf start).length ∧
        ev.payload = payloadCopied buf start ++
          List.replicate (128 - (payloadCopied buf start).length) 0 ∧
        (payloadCopied buf start).length =
          if start < buf.length then min (buf.length - start) 128 else 0 := by
  intro buf ev h
  have key : ∃ start, ev.payload_len = (capturePayload buf start).2.1 ∧
      ev.payload = (capturePayload buf start).1 := by
    rcases parse_some_arm buf ev h with ha | ha | ha
    · exact ⟨_, by rw [tcpArm_some _ _ _ _ _ _ ha],
        by rw [tcpArm_some _ _ _ _ _ _ ha]⟩
    · exact ⟨_, by rw [udpArm_some _ _ _ _ _ _ ha],
        by rw [udpArm_some _ _ _ _ _ _ ha]⟩
    · exact ⟨_, by rw [icmpArm_some _ _ _ _ _ _ ha],
        by rw [icmpArm_some _ _ _ _ _ _ ha]⟩
  obtain ⟨start, h1, h2⟩ := key
  have hlen := payloadCopied_length buf start
  constructor
  · rw [h1, capturePayload_count buf start, hlen]
    unfold MAX_PAYLOAD_SIZE
    split <;> omega
  · refine ⟨start, ?_, ?_, ?_⟩
    · rw [h1, capturePayload_count buf start]
    · rw [h2, capturePayload_fst buf start]
      rfl
    · simpa [MAX_PAYLOAD_SIZE] using hlen

/-- Witness for C2: the parser accepts `sampleTcpBuf` and the emitted
event obeys the payload-length bound. -/
theorem event_payload_len_spec_witness :
    parse sampleTcpBuf = some sampleTcpEv ∧ sampleTcpEv.payload_len ≤ 128 :=
  ⟨by decide, (event_payload_len_spec sampleTcpBuf sampleTcpEv (by decide)).1⟩

/-! Claim C3 — IPv4 header length (corrected: no 20-byte minimum). -/

/-- C3 counterexample: `ihl0Buf` has version/IHL byte `0x40`, the
parser still emits an event, the header length it uses is `0 < 20`,
and the TCP ports are read at offset `14` (the claimed minimum of 20
would have put them at offset 34). -/
theorem ihl_min_counterexample :
    (parse ihl0Buf).isSome = true ∧
    (parse ihl0Buf).map NetworkEvent.src_port =
      some (le16 (ihl0Buf.getD 14 0) (ihl0Buf.getD 15 0)) ∧
    ipHeaderLen (ihl0Buf.getD 14 0) = 0 ∧
    ¬ 20 ≤ ipHeaderLen (ihl0Buf.getD 14 0) := by decide

/-- C3 amended: for every parsed packet the L4 offset is
`14 + (low nibble of version/IHL byte) × 4` — the ports of a TCP or UDP
event are read exactly there — and the header length is
`(low nibble) × 4` with no lower bound (only the trivial upper bound
60). -/
theorem ihl_l4_offset :
    (∀ (buf : List Nat) (ev : NetworkEvent), parse buf = some ev →
      ev.protocol = 6 →
      ev.src_port = le16 (buf.getD (14 + ipHeaderLen (buf.getD 14 0)) 0)
        (buf.getD (14 + ipHeaderLen (buf.getD 14 0) + 1) 0)) ∧
    (∀ (buf : List Nat) (ev : NetworkEvent), parse buf = some ev →
      ev.protocol = 17 →
      ev.src_port = le16 (buf.getD (14 + ipHeaderLen (buf.getD 14 0)) 0)
        (buf.getD (14 + ipHeaderLen (buf.getD 14 0) + 1) 0)) ∧
    (∀ v, v < 256 → ipHeaderLen v = v % 16 * 4 ∧ ipHeaderLen v ≤ 60) := by
  refine ⟨?_, ?_, ?_⟩
  · intro buf ev h hp
    rcases parse_some_arm buf ev h with ha | ha | ha
    · rw [tcpArm_some _ _ _ _ _ _ ha]
    · rw [udpArm_some _ _ _ _ _ _ ha] at hp; simp at hp
    · rw [icmpArm_some _ _ _ _ _ _ ha] at hp; simp at hp
  · intro buf ev h hp
    rcases parse_some_arm buf ev h with ha | ha | ha
    · rw [tcpArm_some _ _ _ _ _ _ ha] at hp; simp at hp
    · rw [udpArm_some _ _ _ _ _ _ ha]
    · rw [icmpArm_some _ _ _ _ _ _ ha] at hp; simp at hp
  · intro v _
    unfold ipHeaderLen
    exact ⟨rfl, by omega⟩

/-- Witness for C3 (amended) at `sampleTcpBuf` and at the standard
version/IHL byte `0x45`. -/
theorem ihl_l4_offset_witness :
    sampleTcpEv.src_port =
      le16 (sampleTcpBuf.getD (14 + ipHeaderLen (sampleTcpBuf.getD 14 0)) 0)
        (sampleTcpBuf.getD (14 + ipHeaderLen (sampleTcpBuf.getD 14 0) + 1) 0) ∧
    ipHeaderLen 0x45 = 0x45 % 16 * 4 ∧ ipHeaderLen 0x45 ≤ 60 :=
  ⟨ihl_l4_offset.1 sampleTcpBuf sampleTcpEv (by decide) (by decide),
   ihl_l4_offset.2.2 0x45 (by decide)⟩

/-! Claim C4 — filter semantics. -/

/-- C4: `matches` is true exactly when every present criterion equals
the corresponding event field; an all-absent filter matches everything;
the filter (protocol = UDP, dst_port = 53-in-wire-order) rejects a TCP
event whose dst_port is 53. -/
theorem filter_matches_iff :
    (∀ (f : Filter) (e : NetworkEvent),
      f.matches e = true ↔
        ((∀ p, f.protocol = some p → e.protocol = p) ∧
         (∀ x, f.src_ip = some x → e.src_ip = x) ∧
         (∀ x, f.dst_ip = some x → e.dst_ip = x) ∧
         (∀ x, f.src_port = some x → e.src_port = x) ∧
         (∀ x, f.dst_port = some x → e.dst_port = x))) ∧
    (∀ e : NetworkEvent,
      (Filter.mk none none none none none).matches e = true) ∧
    ((Filter.mk (some 17) none none none (some 13568)).matches
      { protocol := 6, src_ip := 0, dst_ip := 0, src_port := 0,
        dst_port := 13568, packet_size := 0, tcp_flags := 0,
        payload_len := 0, payload := [] } = false) := by
  refine ⟨?_, ?_, by decide⟩
  · intro f e
    obtain ⟨fp, fsi, fdi, fsp, fdp⟩ := f
    cases fp <;> cases fsi <;> cases fdi <;> cases fsp <;> cases fdp <;>
      simp [Filter.matches, and_assoc]
  · intro e
    simp [Filter.matches]

/-- Witness for C4: the all-absent filter matches a concrete event,
via the characterisation. -/
theorem filter_matches_iff_witness :
    Filter.matches (Filter.mk none none none none none) sampleTcpEv = true :=
  (filter_matches_iff.1 (Filter.mk none none none none none)
    sampleTcpEv).mpr (by simp)

/-! Claim C9 — the filter verdict depends only on the header fields. -/

/-- C9: two events that agree on protocol, src_ip, dst_ip, src_port and
dst_port receive the same verdict from every filter, regardless of
packet_size, tcp_flags, payload_len and payload. -/
theorem matches_depends_only_on_header :
    ∀ (f : Filter) (e1 e2 : NetworkEvent),
      e1.protocol = e2.protocol → e1.src_ip = e2.src_ip →
      e1.dst_ip = e2.dst_ip → e1.src_port = e2.src_port →
      e1.dst_port = e2.dst_port → f.matches e1 = f.matches e2 := by
  intro f e1 e2 h1 h2 h3 h4 h5
  unfold Filter.matches
  rw [h1, h2, h3, h4, h5]

/-- Witness for C9: `evHeaderA` and `evHeaderB` share headers but
differ in payload_len, and a concrete filter gives both the same
verdict. -/
theorem matches_depends_only_on_header_witness :
    Filter.matches (Filter.mk (some 6) none none none none) evHeaderA =
      Filter.matches (Filter.mk (some 6) none none none none) evHeaderB ∧
    evHeaderA.payload_len ≠ evHeaderB.payload_len :=
  ⟨matches_depends_only_on_header _ evHeaderA evHeaderB rfl rfl rfl rfl rfl,
   by decide⟩

end AyaNM

namespace AyaNM

/-! No-newline lemmas: every line the renderer produces is free of
`'\n'`, so the reparsing-side splitter recovers exactly those lines. -/

theorem digitChar_ne_nl : ∀ d : Nat, Nat.digitChar d ≠ '\n' := by
  have small : ∀ d, d < 16 → Nat.digitChar d ≠ '\n' := by decide
  intro d
  rcases Nat.lt_or_ge d 16 with h | h
  · exact small d h
  · unfold Nat.digitChar
    repeat rw [if_neg (by omega)]
    decide

theorem toDigitsCore_mem (b : Nat) :
    ∀ fuel n ds c, c ∈ Nat.toDigitsCore b fuel n ds →
      c ∈ ds ∨ ∃ m, c = Nat.digitChar m := by
  intro fuel
  induction fuel with
  | zero => intro n ds c hc; exact Or.inl hc
  | succ f ih =>
    intro n ds c hc
    unfold Nat.toDigitsCore at hc
    simp only at hc
    split at hc
    · rcases List.mem_cons.1 hc with rfl | h
      · exact Or.inr ⟨n % b, rfl⟩
      · exact Or.inl h
    · rcases ih _ _ _ hc with h | h
      · rcases List.mem_cons.1 h with rfl | h
        · exact Or.inr ⟨n % b, rfl⟩
        · exact Or.inl h
      · exact Or.inr h

theorem nl_not_mem_natChars (n : Nat) : '\n' ∉ natChars n := by
  intro h
  have hm : ('\n' : Char) ∈ Nat.toDigits 10 n := h
  rcases toDigitsCore_mem 10 _ _ _ _ hm with h1 | ⟨m, hm1⟩
  · simp at h1
  · exact digitChar_ne_nl m hm1.symm

theorem nl_not_mem_format_protocol (p : Nat) : '\n' ∉ format_protocol p := by
  unfold format_protocol
  repeat' split
  all_goals decide

theorem nl_not_mem_format_ip (x : Nat) : '\n' ∉ format_ip x := by
  unfold format_ip
  simp only [List.mem_append, not_or]
  refine ⟨⟨⟨⟨⟨⟨?_, ?_⟩, ?_⟩, ?_⟩, ?_⟩, ?_⟩, ?_⟩ <;>
    first | exact nl_not_mem_natChars _ | decide

theorem nl_not_mem_format_event (ev : NetworkEvent) :
    '\n' ∉ format_event ev := by
  unfold format_event
  split <;>
    · simp only [List.mem_append, not_or]
      repeat' constructor
      all_goals
        first
          | exact nl_not_mem_natChars _
          | exact nl_not_mem_format_ip _
          | exact nl_not_mem_format_protocol _
          | decide

theorem nl_not_mem_payloadHeaderLine (a e : Nat) :
    '\n' ∉ payloadHeaderLine a e := by
  unfold payloadHeaderLine
  simp only [List.mem_append, not_or]
  repeat' constructor
  all_goals first | exact nl_not_mem_natChars _ | decide

theorem nl_not_mem_pageHeader (a b c : Nat) : '\n' ∉ pageHeader a b c := by
  unfold pageHeader
  simp only [List.mem_append, not_or]
  repeat' constructor
  all_goals first | exact nl_not_mem_natChars _ | decide

theorem asciiCell_ne_nl (b : Nat) : asciiCell b ≠ '\n' := by
  unfold asciiCell
  split
  · rename_i h
    have hb : 32 ≤ b ∧ b < 127 := by
      unfold isAsciiGraphicB at h
      simp only [Bool.or_eq_true, Bool.and_eq_true, decide_eq_true_eq,
        beq_iff_eq] at h
      omega
    have key : ∀ x, x < 127 → 32 ≤ x → Char.ofNat x ≠ '\n' := by decide
    exact key b hb.2 hb.1
  · decide

theorem nl_not_mem_hexCells : ∀ (j : Nat) (chunk : List Nat),
    '\n' ∉ hexCells j chunk := by
  intro j chunk
  induction chunk generalizing j with
  | nil => simp [hexCells]
  | cons b bs ih =>
    unfold hexCells
    simp only [List.mem_append, not_or]
    refine ⟨⟨⟨?_, by decide⟩, ?_⟩, ih (j + 1)⟩
    · unfold hexByte
      intro h
      rcases List.mem_cons.1 h with h1 | h1
      · exact digitChar_ne_nl _ h1.symm
      · rcases List.mem_cons.1 h1 with h2 | h2
        · exact digitChar_ne_nl _ h2.symm
        · simp at h2
    · split <;> decide

theorem nl_not_mem_padGo : ∀ (k j : Nat), '\n' ∉ padGo j k := by
  intro k
  induction k with
  | zero => intro j; simp [padGo]
  | succ n ih =>
    intro j
    unfold padGo
    simp only [List.mem_append, not_or]
    refine ⟨⟨by decide, ?_⟩, ih (j + 1)⟩
    split <;> decide

theorem nl_not_mem_mkRow (off : Nat) (chunk : List Nat) :
    '\n' ∉ mkRow off chunk := by
  unfold mkRow
  simp only [List.mem_append, not_or]
  refine ⟨⟨⟨⟨⟨?_, by decide⟩, nl_not_mem_hexCells 0 chunk⟩,
    nl_not_mem_padGo _ _⟩, by decide⟩, ?_⟩
  · unfold hexWord4
    intro h
    rcases List.mem_cons.1 h with h1 | h1
    · exact digitChar_ne_nl _ h1.symm
    · rcases List.mem_cons.1 h1 with h2 | h2
      · exact digitChar_ne_nl _ h2.symm
      · rcases List.mem_cons.1 h2 with h3 | h3
        · exact digitChar_ne_nl _ h3.symm
        · rcases List.mem_cons.1 h3 with h4 | h4
          · exact digitChar_ne_nl _ h4.symm
          · simp at h4
  · intro h
    rcases List.mem_map.1 h with ⟨b, _, hb⟩
    exact asciiCell_ne_nl b hb

/-! Splitting renderer output back into its lines. -/

theorem splitNl_append_cons (l rest : List Char) (h : '\n' ∉ l) :
    splitNl (l ++ '\n' :: rest) = l :: splitNl rest := by
  induction l with
  | nil => simp [splitNl]
  | cons c cs ih =>
    have hc : c ≠ '\n' := fun hh => h (hh ▸ List.mem_cons_self c cs)
    have hcs : '\n' ∉ cs := fun hh => h (List.mem_cons_of_mem c hh)
    rw [List.cons_append]
    simp only [splitNl]
    rw [if_neg hc, ih hcs]
    rfl

theorem splitNl_linesJoin :
    ∀ (ls : List (List Char)) (tail : List Char), (∀ l ∈ ls, '\n' ∉ l) →
      splitNl (linesJoin ls ++ tail) = ls ++ splitNl tail := by
  intro ls
  induction ls with
  | nil => intro tail _; simp [linesJoin]
  | cons l ls ih =>
    intro tail h
    have h1 : '\n' ∉ l := h l (List.mem_cons_self l ls)
    have h2 : ∀ x ∈ ls, '\n' ∉ x := fun x hx => h x (List.mem_cons_of_mem l hx)
    have harr : linesJoin (l :: ls) ++ tail =
        l ++ '\n' :: (linesJoin ls ++ tail) := by
      simp [linesJoin]
    rw [harr, splitNl_append_cons l (linesJoin ls ++ tail) h1, ih tail h2]
    rfl

/-! Claim C10 — Text mode with an empty payload. -/

/-- C10: in Text mode an event with `payload_len = 0` renders as
exactly the Basic line; the `"Content:"` header appears only for a
non-empty payload. -/
theorem text_mode_empty_payload :
    ∀ (ts : Nat) (ev : NetworkEvent) (payloadBytes : Nat)
      (payloadFull : Bool) (pageLines : Nat), ev.payload_len = 0 →
      format_event_with_mode ts ev DisplayMode.Text payloadBytes payloadFull
        pageLines = format_event ev := by
  intro ts ev pb pf pl h
  unfold format_event_with_mode
  simp [h]

/-- Witness for C10 at a concrete event with empty payload. -/
theorem text_mode_empty_payload_witness :
    format_event_with_mode 0 evHeaderB DisplayMode.Text 128 false 0 =
      format_event evHeaderB :=
  text_mode_empty_payload 0 evHeaderB 128 false 0 rfl

/-! Claim C8 — length of `payload_hex` in Json mode. -/

theorem payloadHex_length : ∀ bs : List Nat,
    (List.intercalate [' '] (bs.map hexByte)).length =
      if bs = [] then 0 else 3 * bs.length - 1 := by
  intro bs
  induction bs with
  | nil => simp [List.intercalate]
  | cons b bs ih =>
    cases bs with
    | nil => simp [List.intercalate, hexByte]
    | cons c cs =>
      simp only [List.map_cons, List.intercalate, List.intersperse,
        List.flatten_cons] at ih ⊢
      simp only [List.length_append, ih]
      simp [hexByte]
      omega

/-- C8: the Json `payload_hex` string has length `3 * payload_len - 1`
when `payload_len > 0` (two lowercase hex digits per captured byte,
single spaces between), and length 0 when `payload_len = 0`. -/
theorem json_payload_hex_length :
    ∀ (ts : Nat) (ev : NetworkEvent), ev.payload_len ≤ ev.payload.length →
      ((jsonEventOf ts ev).payload_hex).length =
        if ev.payload_len = 0 then 0 else 3 * ev.payload_len - 1 := by
  intro ts ev h
  have hlen : (ev.payload.take ev.payload_len).length = ev.payload_len := by
    simp [List.length_take]
    omega
  unfold jsonEventOf
  simp only
  rw [payloadHex_length (ev.payload.take ev.payload_len), hlen]
  by_cases h0 : ev.payload_len = 0
  · simp [h0]
  · rw [if_neg, if_neg h0]
    intro hnil
    rw [hnil] at hlen
    simp at hlen
    exact h0 hlen.symm

/-- Witness for C8: a 5-byte payload gives a 14-character
`payload_hex`. -/
theorem json_payload_hex_length_witness :
    ((jsonEventOf 0 evHeaderA).payload_hex).length = 14 := by
  have h := json_payload_hex_length 0 evHeaderA (by decide)
  simpa using h

end AyaNM

namespace AyaNM

/-! Claim C7 — the hex dump round-trips through its byte columns. -/

theorem digitChar_hex : ∀ d, d < 16 →
    isHexDigitChar (Nat.digitChar d) = true ∧
      hexCharVal (Nat.digitChar d) = d := by decide

theorem extractRowGo_spec :
    ∀ (chunk : List Nat) (j : Nat) (tail : List Char),
      j + chunk.length ≤ 16 → (∀ b ∈ chunk, b < 256) →
      extractRowGo (16 - j) j
        (hexCells j chunk ++
          padGo (j + chunk.length) (16 - (j + chunk.length)) ++
          ' ' :: ' ' :: tail) = chunk := by
  intro chunk
  induction chunk with
  | nil =>
    intro j tail _ _
    rcases Nat.lt_or_ge j 16 with h | h
    · obtain ⟨k, hk⟩ : ∃ k, 16 - j = k + 1 := ⟨16 - j - 1, by omega⟩
      simp only [hexCells, List.nil_append, List.length_nil, Nat.add_zero, hk]
      unfold padGo
      simp only [List.cons_append, List.append_assoc]
      unfold extractRowGo
      rw [if_neg (by decide)]
    · have h0 : 16 - j = 0 := by omega
      simp only [hexCells, List.nil_append, List.length_nil, Nat.add_zero, h0]
      rfl
  | cons b bs ih =>
    intro j tail hle hlt
    have hb : b < 256 := hlt b (List.mem_cons_self b bs)
    have hbs : ∀ x ∈ bs, x < 256 := fun x hx => hlt x (List.mem_cons_of_mem b hx)
    have hj : j ≤ 15 := by
      simp only [List.length_cons] at hle
      omega
    obtain ⟨k, hk⟩ : ∃ k, 16 - j = k + 1 := ⟨15 - j, by omega⟩
    have hk2 : k = 16 - (j + 1) := by omega
    have hlen : j + (b :: bs).length = j + 1 + bs.length := by
      simp only [List.length_cons]
      omega
    rw [hlen, hk]
    simp only [hexCells, hexByte, List.cons_append, List.append_assoc]
    unfold extractRowGo
    rw [if_pos (by
      rw [(digitChar_hex (b / 16) (by omega)).1, (digitChar_hex (b % 16) (by omega)).1]
      rfl)]
    congr 1
    · rw [(digitChar_hex (b / 16) (by omega)).2, (digitChar_hex (b % 16) (by omega)).2]
      omega
    · by_cases h7 : j = 7
      · subst h7
        simp only [if_pos rfl, List.singleton_append, List.drop_succ_cons,
          List.drop_zero]
        rw [hk2]
        have hgoal := ih 8 tail (by simp only [List.length_cons] at hle; omega) hbs
        simpa [List.append_assoc] using hgoal
      · simp only [if_neg h7, List.nil_append, List.drop_succ_cons,
          List.drop_zero]
        rw [hk2]
        have hgoal := ih (j + 1) tail
          (by simp only [List.length_cons] at hle; omega) hbs
        simpa [List.append_assoc] using hgoal

theorem extractRow_mkRow (off : Nat) (chunk : List Nat)
    (hle : chunk.length ≤ 16) (hlt : ∀ b ∈ chunk, b < 256) :
    extractRow (mkRow off chunk) = chunk := by
  unfold extractRow mkRow
  simp only [hexWord4, List.cons_append, List.append_assoc,
    List.drop_succ_cons, List.drop_zero]
  have h := extractRowGo_spec chunk 0 (chunk.map asciiCell)
    (by omega) hlt
  simpa using h

theorem flatten_chunks : ∀ (k : Nat) (l : List Nat),
    ((List.range k).map (fun i => (l.drop (i * 16)).take 16)).flatten =
      l.take (k * 16) := by
  intro k
  induction k with
  | zero => intro l; simp
  | succ m ih =>
    intro l
    rw [List.range_succ, List.map_append, List.flatten_append, ih l]
    simp only [List.map_cons, List.map_nil, List.flatten_cons,
      List.flatten_nil, List.append_nil]
    rw [Nat.succ_mul, List.take_add]

/-- C7: re-parsing the two-hex-digit byte columns of
`format_hex_dump payload bytesToShow` recovers exactly the shown range
`payload.take (min bytesToShow payload.length)`, for every byte list
and every requested count. -/
theorem hex_dump_roundtrip :
    ∀ (p : List Nat) (n : Nat), (∀ b ∈ p, b < 256) →
      reparseHexDump (format_hex_dump p n) = p.take (min n p.length) := by
  intro p n hlt
  unfold format_hex_dump reparseHexDump
  simp only
  have hnl : ∀ l ∈ dumpRows (p.take (min n p.length))
      ((min n p.length + 15) / 16), '\n' ∉ l := by
    intro l hl
    rcases List.mem_map.1 hl with ⟨i, _, rfl⟩
    exact nl_not_mem_mkRow _ _
  have hsplit := splitNl_linesJoin
    (dumpRows (p.take (min n p.length)) ((min n p.length + 15) / 16)) [] hnl
  simp only [splitNl, List.append_nil] at hsplit
  rw [hsplit]
  unfold dumpRows
  rw [List.map_map]
  have hrow : ∀ i ∈ List.range ((min n p.length + 15) / 16),
      (extractRow ∘ fun i =>
        mkRow (i * 16) (((p.take (min n p.length)).drop (i * 16)).take 16)) i =
        ((p.take (min n p.length)).drop (i * 16)).take 16 := by
    intro i _
    refine extractRow_mkRow _ _ ?_ ?_
    · simp [List.length_take]
    · intro b hb
      exact hlt b (List.take_subset _ _
        (List.drop_subset _ _ (List.take_subset _ _ hb)))
  rw [List.map_congr_left hrow, flatten_chunks]
  refine List.take_of_length_le ?_
  simp only [List.length_take]
  omega

/-- Witness for C7 at a concrete payload and count. -/
theorem hex_dump_roundtrip_witness :
    reparseHexDump (format_hex_dump [71, 0, 255] 2) = [71, 0] := by
  have h := hex_dump_roundtrip [71, 0, 255] 2 (by decide)
  exact h

end AyaNM

namespace AyaNM

/-! Claim C6 — Hex-mode header lines (corrected: the source's literal
text is `"Payload ({} bytes, 显示 {} bytes):"` and
`"--- 页 {} ({}-{} 字节) ---"`, with the page range ending at
`end_byte - 1`). -/

theorem nl_not_mem_pagedLines (shown : List Nat) (n pl tl pg : Nat) :
    ∀ l ∈ pagedLines shown n pl tl pg, '\n' ∉ l := by
  intro l hl
  unfold pagedLines at hl
  rcases List.mem_flatten.1 hl with ⟨sub, hsub, hmem⟩
  rcases List.mem_map.1 hsub with ⟨page, _, rfl⟩
  unfold pageLineList at hmem
  rcases List.mem_cons.1 hmem with rfl | hmem
  · exact nl_not_mem_pageHeader _ _ _
  · rcases List.mem_append.1 hmem with hmem | hmem
    · rcases List.mem_map.1 hmem with ⟨line, _, rfl⟩
      exact nl_not_mem_mkRow _ _
    · split at hmem
      · rcases List.mem_cons.1 hmem with rfl | h
        · simp
        · simp at h
      · simp at hmem

/-- C6 counterexample: at a concrete event the line after the Basic
line reads `"Payload (0 bytes, 显示 0 bytes):"`, not the claimed
`"Payload (0 bytes, showing 0 bytes):"`; and a concrete paged dump
contains the page header `"--- 页 1 (0-15 字节) ---"` but no line
`"--- page 1 (0-15 bytes) ---"`. -/
theorem hex_header_counterexample :
    (splitNl (format_event_with_mode 0 sampleTcpEv DisplayMode.Hex 128 false
      0))[1]? = some "Payload (0 bytes, 显示 0 bytes):".data ∧
    "Payload (0 bytes, 显示 0 bytes):".data ≠
      "Payload (0 bytes, showing 0 bytes):".data ∧
    "--- 页 1 (0-15 字节) ---".data ∈
      splitNl (format_hex_dump_paged (List.replicate 32 0) 32 1) ∧
    "--- page 1 (0-15 bytes) ---".data ∉
      splitNl (format_hex_dump_paged (List.replicate 32 0) 32 1) := by decide

/-- C6 amended: in Hex mode the line after the Basic line is exactly
`"Payload ({payload_len} bytes, 显示 {effective} bytes):"` with
`effective = payload_full ? payload_len : min(payload_bytes,
payload_len)`, and when `page_lines > 0` and the dump exceeds one page,
every page `p` contributes a line
`"--- 页 {p+1} ({startByte}-{endByte - 1} 字节) ---"` where
`endByte = min(end_line * 16, effective)`. -/
theorem hex_mode_output_structure :
    ∀ (ts : Nat) (ev : NetworkEvent) (pb : Nat) (pf : Bool) (pl : Nat),
      ev.payload_len ≤ ev.payload.length →
      ((splitNl (format_event_with_mode ts ev DisplayMode.Hex pb pf pl))[1]? =
        some (payloadHeaderLine ev.payload_len (effBytes pb pf ev.payload_len)) ∧
      (∀ page, 0 < pl → pl * 16 < effBytes pb pf ev.payload_len →
        page < ((effBytes pb pf ev.payload_len + 15) / 16 + pl - 1) / pl →
        pageHeader (page + 1) (page * pl * 16)
          (min (min ((page + 1) * pl) ((effBytes pb pf ev.payload_len + 15) / 16)
              * 16)
            (effBytes pb pf ev.payload_len)) ∈
          splitNl (format_event_with_mode ts ev DisplayMode.Hex pb pf pl))) := by
  intro ts ev pb pf pl hwf
  have hEle : effBytes pb pf ev.payload_len ≤ ev.payload_len := by
    unfold effBytes
    split <;> omega
  have hout : format_event_with_mode ts ev DisplayMode.Hex pb pf pl =
      format_event ev ++ '\n' ::
        (payloadHeaderLine ev.payload_len (effBytes pb pf ev.payload_len) ++
          '\n' ::
          (if 0 < pl ∧ pl * 16 < effBytes pb pf ev.payload_len then
            format_hex_dump_paged (ev.payload.take ev.payload_len)
              (effBytes pb pf ev.payload_len) pl
          else
            format_hex_dump (ev.payload.take ev.payload_len)
              (effBytes pb pf ev.payload_len))) := rfl
  have hsplit : splitNl (format_event_with_mode ts ev DisplayMode.Hex pb pf pl) =
      format_event ev ::
        payloadHeaderLine ev.payload_len (effBytes pb pf ev.payload_len) ::
        splitNl
          (if 0 < pl ∧ pl * 16 < effBytes pb pf ev.payload_len then
            format_hex_dump_paged (ev.payload.take ev.payload_len)
              (effBytes pb pf ev.payload_len) pl
          else
            format_hex_dump (ev.payload.take ev.payload_len)
              (effBytes pb pf ev.payload_len)) := by
    rw [hout, splitNl_append_cons _ _ (nl_not_mem_format_event ev),
      splitNl_append_cons _ _ (nl_not_mem_payloadHeaderLine _ _)]
  constructor
  · rw [hsplit]
    simp
  · intro page hpl hlt hpage
    rw [hsplit]
    refine List.mem_cons_of_mem _ (List.mem_cons_of_mem _ ?_)
    rw [if_pos ⟨hpl, hlt⟩]
    unfold format_hex_dump_paged
    have hlen : (ev.payload.take ev.payload_len).length = ev.payload_len := by
      simp only [List.length_take]
      omega
    have hmin : min (effBytes pb pf ev.payload_len)
        (ev.payload.take ev.payload_len).length =
        effBytes pb pf ev.payload_len := by
      rw [hlen]
      omega
    simp only [hmin]
    rw [if_neg (by omega : ¬ pl = 0)]
    have hlines := splitNl_linesJoin
      (pagedLines ((ev.payload.take ev.payload_len).take
          (effBytes pb pf ev.payload_len))
        (effBytes pb pf ev.payload_len) pl
        ((effBytes pb pf ev.payload_len + 15) / 16)
        (((effBytes pb pf ev.payload_len + 15) / 16 + pl - 1) / pl)) []
      (nl_not_mem_pagedLines _ _ _ _ _)
    simp only [splitNl, List.append_nil] at hlines
    rw [hlines]
    unfold pagedLines
    refine List.mem_flatten.2 ⟨_, List.mem_map_of_mem _ (List.mem_range.2 hpage), ?_⟩
    unfold pageLineList
    exact List.mem_cons_self _ _

/-- Witness for C6 (amended) at a concrete event: header line and the
second page's header. -/
theorem hex_mode_output_structure_witness :
    (splitNl (format_event_with_mode 0 evHeaderA DisplayMode.Hex 128 false
      0))[1]? = some (payloadHeaderLine 5 5) ∧
    pageHeader 2 16 32 ∈
      splitNl (format_event_with_mode 0
        { protocol := 6, src_ip := 0, dst_ip := 0, src_port := 0,
          dst_port := 0, packet_size := 0, tcp_flags := 0, payload_len := 40,
          payload := List.range 128 } DisplayMode.Hex 128 false 1) := by
  constructor
  · exact (hex_mode_output_structure 0 evHeaderA 128 false 0 (by decide)).1
  · have h := (hex_mode_output_structure 0
      { protocol := 6, src_ip := 0, dst_ip := 0, src_port := 0,
        dst_port := 0, packet_size := 0, tcp_flags := 0, payload_len := 40,
        payload := List.range 128 } 128 false 1 (by decide)).2 1
      (by decide) (by decide) (by decide)
    simpa using h

end AyaNM

namespace AyaNM

/-! Claim C5 — the HTTP dissector (corrected: the source tests
`lines[0].trim()`, the first line, not the first non-empty line). -/

/-- C5 counterexample: for the payload bytes `"\nGET / HTTP/1.1"` the
first non-empty line starts with `"GET "`, yet `parse_http` returns
`None` (it only examines the first, empty, line). -/
theorem http_first_line_counterexample :
    parse_http (10 :: "GET / HTTP/1.1".data.map Char.toNat) = none ∧
    ((rustLines (decodeUtf8Lossy
        (10 :: "GET / HTTP/1.1".data.map Char.toNat))).filter
      (fun l => !l.isEmpty))[0]? = some "GET / HTTP/1.1".data ∧
    isHttpReqStart "GET / HTTP/1.1".data = true := by decide

theorem httpTail_eq : ∀ ls : List (List Char),
    httpTail ls =
      ((ls.takeWhile (fun l => !(rustTrim l).isEmpty)).map
        (fun l => "  ".data ++ rustTrim l ++ ['\n'])).flatten := by
  intro ls
  induction ls with
  | nil => simp [httpTail]
  | cons l ls ih =>
    unfold httpTail
    by_cases h : (rustTrim l).isEmpty
    · simp [h, List.takeWhile_cons]
    · simp only [h, Bool.not_false, if_neg h, List.takeWhile_cons,
        List.map_cons, List.flatten_cons, ih]
      simp [List.append_assoc]

/-- C5 amended: for every TCP event with srcPort 80 or dstPort 80, the
HTTP dissector succeeds iff the first line of the lossily decoded
payload, after trimming, starts with one of the seven request methods
or with `"HTTP/"`; on success it emits the banner, the trimmed first
line and then up to 20 subsequent lines (trimmed, stopping at the
first line that is blank after trimming); on failure the Protocol
renderer falls back to `format_text_payload`. -/
theorem http_dissector_spec :
    ∀ ev : NetworkEvent, ev.protocol = 6 →
      (from_be16 ev.src_port = 80 ∨ from_be16 ev.dst_port = 80) →
      ((parse_http (ev.payload.take ev.payload_len)).isSome = true ↔
        (match rustLines (decodeUtf8Lossy (ev.payload.take ev.payload_len)) with
         | [] => False
         | l0 :: _ => isHttpReqStart (rustTrim l0) = true ∨
             startsWithChars "HTTP/".data (rustTrim l0) = true)) ∧
      (∀ out, parse_http (ev.payload.take ev.payload_len) = some out →
        (match rustLines (decodeUtf8Lossy (ev.payload.take ev.payload_len)) with
         | [] => False
         | l0 :: rest =>
           out = (if isHttpReqStart (rustTrim l0) then "HTTP Request:\n".data
                  else "HTTP Response:\n".data) ++
             "  ".data ++ rustTrim l0 ++ '\n' ::
             (((rest.take 20).takeWhile (fun l => !(rustTrim l).isEmpty)).map
               (fun l => "  ".data ++ rustTrim l ++ ['\n'])).flatten)) ∧
      (parse_http (ev.payload.take ev.payload_len) = none →
        format_protocol_parse ev =
          protoHeader ev ++
            format_text_payload (ev.payload.take ev.payload_len)) := by
  intro ev hp6 hport
  refine ⟨?_, ?_, ?_⟩
  · rcases hl : rustLines (decodeUtf8Lossy (ev.payload.take ev.payload_len))
      with _ | ⟨l0, rest⟩
    · unfold parse_http
      rw [hl]
      simp
    · unfold parse_http
      rw [hl]
      simp only
      by_cases h1 : isHttpReqStart (rustTrim l0)
      · simp [h1]
      · by_cases h2 : startsWithChars "HTTP/".data (rustTrim l0)
        · simp [h1, h2]
        · simp [h1, h2]
  · intro out hout
    unfold parse_http at hout
    cases hl : rustLines (decodeUtf8Lossy (ev.payload.take ev.payload_len)) with
    | nil => rw [hl] at hout; simp at hout
    | cons l0 rest =>
      rw [hl] at hout
      simp only at hout
      by_cases h1 : isHttpReqStart (rustTrim l0)
      · rw [if_pos h1] at hout
        simp only [Option.some.injEq] at hout
        simp only [if_pos h1, ← hout, httpTail_eq]
        simp
      · rw [if_neg h1] at hout
        by_cases h2 : startsWithChars "HTTP/".data (rustTrim l0)
        · rw [if_pos h2] at hout
          simp only [Option.some.injEq] at hout
          simp only [if_neg h1, ← hout, httpTail_eq]
          simp
        · rw [if_neg h2] at hout
          simp at hout
  · intro hnone
    simp only [format_protocol_parse]
    rw [if_pos ⟨hp6, hport.symm⟩, hnone]
    simp only
    rw [if_neg (by rintro ⟨h17, -⟩; omega)]

/-- Witness for C5 (amended): a TCP port-80 event with payload
`"hello"` fails HTTP dissection and the Protocol renderer falls back to
Text. -/
theorem http_dissector_spec_witness :
    format_protocol_parse evHttpText =
      protoHeader evHttpText ++
        format_text_payload (evHttpText.payload.take evHttpText.payload_len) :=
  (http_dissector_spec evHttpText (by decide) (Or.inr (by decide))).2.2
    (by decide)

end AyaNM
